import Mathlib

/-!
Verification development for the clio-ai repository.

The repository ships an npm install script (src/npm/scripts/install.js),
which is embedded below in the `Install` namespace.  The agent
orchestration core described by the specification (ModelSpec Registry,
Action Parser, Tool Executor, Conversation Manager) has no source under
src/, so those components are modelled from the specification text; each
such definition carries a doc comment starting with
`Modelled from the spec:`.
-/

namespace Install

/-- Shallow embedding of the PLATFORMS table of src/npm/scripts/install.js:
the five supported platform-architecture keys and their binary names. -/
def PLATFORMS : List (String × String) :=
  [ ("darwin-x64", "clio-ai-darwin-x64")
  , ("darwin-arm64", "clio-ai-darwin-arm64")
  , ("linux-x64", "clio-ai-linux-x64")
  , ("linux-arm64", "clio-ai-linux-arm64")
  , ("win32-x64", "clio-ai-windows-x64.exe") ]

/-- The lookup `PLATFORMS[platform]` of install.js as association-list
lookup.  The key always contains a dash, so the JavaScript prototype chain
cannot interfere and a plain association lookup is a faithful embedding. -/
def lookupPlatform (platform : String) : Option String :=
  (PLATFORMS.find? (fun e => e.1 == platform)).map (fun e => e.2)

/-- The wrapper text written by install.js: a batch file on win32, a shell
script elsewhere.  `manifest` stands for the path.join expression naming
Cargo.toml. -/
def wrapper (platformOS : String) (manifest : String) : String :=
  if platformOS == "win32" then
    "@echo off\ncargo run --manifest-path \"" ++ manifest ++ "\" -- %*"
  else
    "#!/bin/sh\ncargo run --manifest-path \"" ++ manifest ++ "\" -- \"$@\""

/-- The relative path install.js writes the wrapper to: bin/clio-ai.exe on
win32, bin/clio-ai elsewhere. -/
def binPath (platformOS : String) : String :=
  if platformOS == "win32" then "bin/clio-ai.exe" else "bin/clio-ai"

/-- Trace of the observable effects of one run of install.js. -/
structure Effects where
  exitCode : Option Nat
  errorPrinted : Bool
  mkdirCalled : Bool
  wrotePath : Option String
  wroteContent : Option String
  chmodArg : Option (String × String)
  logPrinted : Bool
  deriving Repr, DecidableEq

/-- Shallow embedding of the top-level control flow of install.js.
`binDirExists` and `binFileExists` describe the filesystem before the run;
`process.exit(1)` stops the script, which the `none` branch models by
reporting no later effects. -/
def installScript (platformOS arch manifest : String)
    (binDirExists binFileExists : Bool) : Effects :=
  let platform := platformOS ++ "-" ++ arch
  match lookupPlatform platform with
  | none =>
      { exitCode := some 1, errorPrinted := true, mkdirCalled := false
      , wrotePath := none, wroteContent := none, chmodArg := none
      , logPrinted := false }
  | some _binary =>
      let p := binPath platformOS
      let _ := binFileExists
      { exitCode := none, errorPrinted := false
      , mkdirCalled := !binDirExists
      , wrotePath := some p
      , wroteContent := some (wrapper platformOS manifest)
      , chmodArg := if platformOS == "win32" then none else some (p, "755")
      , logPrinted := true }

end Install

namespace Agent

/-- Modelled from the spec: the error taxonomy of section 7 (the Tool
Executor, the Action Parser and the provider layer kinds used below). -/
inductive ErrorKind
  | pathEscape
  | alreadyExists
  | notFound
  | patchMismatch
  deriving Repr, DecidableEq

/-- Modelled from the spec: the Action tagged union.  A path is a list of
segments, always interpreted relative to the sandbox root. -/
inductive Action
  | createFile (path : List String) (content : String) (overwrite : Bool)
  | editFile (path : List String) (newContent : String)
  | deleteFile (path : List String)
  | readFile (path : List String)
  | listDir (path : List String)
  deriving Repr, DecidableEq

/-- The path named by an Action. -/
def Action.path : Action → List String
  | .createFile p _ _ => p
  | .editFile p _ => p
  | .deleteFile p => p
  | .readFile p => p
  | .listDir p => p

/-- Modelled from the spec: resolving `.` and `..` segments of an action
path.  The accumulator holds the already-resolved segments in reverse; a
`..` with an empty accumulator climbs above the sandbox root, which is an
escape (`none`). -/
def resolveAux : List String → List String → Option (List String)
  | acc, [] => some acc.reverse
  | acc, seg :: rest =>
      if seg = "." then resolveAux acc rest
      else if seg = ".." then
        match acc with
        | [] => none
        | _ :: acc2 => resolveAux acc2 rest
      else resolveAux (seg :: acc) rest

/-- Modelled from the spec: the path of an action, after resolving `.` and
`..` segments, must remain within the sandbox root; `none` means the path
falls outside. -/
def resolvePath (segs : List String) : Option (List String) :=
  resolveAux [] segs

/-- The sandbox filesystem under the sandbox root, as a finite map from
resolved paths to file contents. -/
abbrev FS := List (List String × String)

/-- Content of the file at path `p`, when present. -/
def FS.lookup (fs : FS) (p : List String) : Option String :=
  (fs.find? (fun e => e.1 == p)).map (fun e => e.2)

/-- Write content `c` at path `p`, replacing an existing entry. -/
def FS.set : FS → List String → String → FS
  | [], p, c => [(p, c)]
  | e :: rest, p, c =>
      if e.1 == p then (p, c) :: rest else e :: FS.set rest p c

/-- Remove the entry at path `p`. -/
def FS.erase : FS → List String → FS
  | [], _ => []
  | e :: rest, p => if e.1 == p then rest else e :: FS.erase rest p

/-- Modelled from the spec: per-action outcome of the Tool Executor. -/
inductive Outcome
  | ok (summary : String)
  | failed (kind : ErrorKind) (msg : String)
  deriving Repr, DecidableEq

/-- Modelled from the spec: `execute(Action, sandboxRoot)` of the Tool
Executor, missing from src/.  The path is resolved before any mutation;
an escape fails with pathEscape and touches nothing.  CreateFile on an
existing target without an explicit overwrite request fails with
alreadyExists; EditFile and DeleteFile on a missing target fail with
notFound; ReadFile and ListDirectory mutate nothing. -/
def execute (a : Action) (fs : FS) : Outcome × FS :=
  match resolvePath a.path with
  | none => (.failed .pathEscape "path escapes sandbox root", fs)
  | some p =>
      match a with
      | .createFile _ content ow =>
          match FS.lookup fs p with
          | some _ =>
              if ow then (.ok "overwritten", FS.set fs p content)
              else (.failed .alreadyExists "target exists", fs)
          | none => (.ok "created", FS.set fs p content)
      | .editFile _ newContent =>
          match FS.lookup fs p with
          | some _ => (.ok "edited", FS.set fs p newContent)
          | none => (.failed .notFound "no such file", fs)
      | .deleteFile _ =>
          match FS.lookup fs p with
          | some _ => (.ok "deleted", FS.erase fs p)
          | none => (.failed .notFound "no such file", fs)
      | .readFile _ =>
          match FS.lookup fs p with
          | some c => (.ok c, fs)
          | none => (.failed .notFound "no such file", fs)
      | .listDir _ => (.ok "listed", fs)

/-- Modelled from the spec: a fenced action directive as it appears in the
model response text, before validation: an operation name, a target path
and a payload. -/
structure RawDirective where
  op : String
  path : List String
  payload : String
  deriving Repr, DecidableEq

/-- Modelled from the spec: the model response text for one turn, as the
sequence of its recognized pieces: surrounding prose and fenced directive
blocks. -/
inductive Fragment
  | prose (text : String)
  | block (d : RawDirective)
  deriving Repr, DecidableEq

/-- Modelled from the spec: a directive is well-formed when it names one of
the five file operations and a nonempty target path; it then denotes an
Action.  A malformed directive denotes nothing. -/
def directiveToAction (d : RawDirective) : Option Action :=
  if d.path = [] then none
  else
    match d.op with
    | "create" => some (.createFile d.path d.payload false)
    | "edit" => some (.editFile d.path d.payload)
    | "delete" => some (.deleteFile d.path)
    | "read" => some (.readFile d.path)
    | "list" => some (.listDir d.path)
    | _ => none

/-- The Action denoted by a fragment: prose denotes none. -/
def fragToAction : Fragment → Option Action
  | .prose _ => none
  | .block d => directiveToAction d

/-- The malformed directive carried by a fragment, when there is one. -/
def fragMalformed : Fragment → Option RawDirective
  | .prose _ => none
  | .block d =>
      match directiveToAction d with
      | some _ => none
      | none => some d

/-- Modelled from the spec: the Action Parser output — either an ordered
action sequence together with the Skipped records for malformed
directives, or parseError when the text holds no recognizable content at
all. -/
inductive ParseOutcome
  | parsed (actions : List Action) (skipped : List RawDirective)
  | parseError
  deriving Repr, DecidableEq

/-- One pass over the fragments: well-formed directives become Actions in
order, malformed ones are collected as Skipped records, prose is
tolerated. -/
def parseFragments : List Fragment → List Action × List RawDirective
  | [] => ([], [])
  | f :: rest =>
      let tail := parseFragments rest
      match f with
      | .prose _ => tail
      | .block d =>
          match directiveToAction d with
          | some a => (a :: tail.1, tail.2)
          | none => (tail.1, d :: tail.2)

/-- Modelled from the spec: the Action Parser, missing from src/.  An
empty response is the only input with no recognizable content at all and
yields parseError; every other response yields its well-formed directives
in order plus Skipped records, so producing no actions is a valid
outcome, not a failure. -/
def parseResponse (frags : List Fragment) : ParseOutcome :=
  match frags with
  | [] => .parseError
  | _ => .parsed (parseFragments frags).1 (parseFragments frags).2

/-- Modelled from the spec: the provider enumeration behind a ModelSpec. -/
inductive Provider
  | google
  | groq
  | ollama
  deriving Repr, DecidableEq

/-- Modelled from the spec: static catalog entry mapping a model
identifier to its provider and display metadata. -/
structure ModelSpec where
  id : String
  name : String
  provider : Provider
  deriving Repr, DecidableEq

/-- Modelled from the spec: the ModelSpec Registry, missing from src/, in
declaration order as given by the repository README model table. -/
def registry : List ModelSpec :=
  [ ⟨"gemini-3-flash-preview", "Gemini 3 Flash", .google⟩
  , ⟨"gemini-2.5-flash-lite", "Gemini 2.5 Flash Lite", .google⟩
  , ⟨"gemini-2.5-flash", "Gemini 2.5 Flash", .google⟩
  , ⟨"gemini-2.5-pro", "Gemini 2.5 Pro", .google⟩
  , ⟨"compound-beta", "Groq Compound", .groq⟩
  , ⟨"meta-llama/llama-4-scout-17b-16e-instruct", "Llama 4 Scout", .groq⟩
  , ⟨"llama3.2", "Llama 3.2", .ollama⟩ ]

/-- Modelled from the spec: `lookup(id)` of the ModelSpec Registry. -/
def lookupModel (id : String) : Option ModelSpec :=
  registry.find? (fun m => m.id == id)

/-- Modelled from the spec: `list()` of the ModelSpec Registry — the
entries in stable declaration order. -/
def listModels : List ModelSpec := registry

/-- Modelled from the spec: the role of a Turn. -/
inductive Role
  | user
  | model
  | toolResult
  deriving Repr, DecidableEq

/-- Modelled from the spec: per-Action pairing of the action with its
outcome, owned by the ToolResult turn that reports it. -/
structure ExecutionResult where
  action : Action
  outcome : Outcome
  deriving Repr, DecidableEq

/-- Modelled from the spec: one Turn of a Conversation. -/
structure Turn where
  role : Role
  content : String
  actions : List Action
  results : List ExecutionResult
  deriving Repr, DecidableEq

/-- A User turn: no actions. -/
def userTurn (content : String) : Turn := ⟨.user, content, [], []⟩

/-- A Model turn carrying its parsed actions. -/
def modelTurn (content : String) (as : List Action) : Turn :=
  ⟨.model, content, as, []⟩

/-- A ToolResult turn carrying per-action outcomes. -/
def toolTurn (rs : List ExecutionResult) : Turn := ⟨.toolResult, "", [], rs⟩

/-- Modelled from the spec: the phases of the Conversation Manager state
machine. -/
inductive Phase
  | idle
  | awaitingResponse
  | applying
  | failed
  deriving Repr, DecidableEq

/-- Modelled from the spec: the Conversation Manager state — current
phase, append-only turn history and the active model id. -/
structure ConvState where
  phase : Phase
  turns : List Turn
  activeModel : String
  deriving Repr, DecidableEq

/-- Modelled from the spec: the provider-layer error kinds. -/
inductive ProviderError
  | authError
  | rateLimited
  | providerUnavailable
  | providerUnreachable
  | timeout
  deriving Repr, DecidableEq

/-- Modelled from the spec: RateLimited, ProviderUnavailable and
ProviderUnreachable are retried with backoff; AuthError and Timeout are
surfaced immediately because retrying them cannot succeed. -/
def retryable : ProviderError → Bool
  | .rateLimited => true
  | .providerUnavailable => true
  | .providerUnreachable => true
  | .authError => false
  | .timeout => false

/-- Outcome of one provider attempt. -/
inductive CallResult
  | success (text : String)
  | failure (e : ProviderError)
  deriving Repr, DecidableEq

/-- Modelled from the spec: the configured bound on retries. -/
def maxRetries : Nat := 3

/-- Modelled from the spec: exponential backoff delay in milliseconds
waited before retrying after attempt `k`. -/
def backoffMs (k : Nat) : Nat := 500 * 2 ^ k

/-- Modelled from the spec: the bounded retry loop of the Conversation
Manager.  `prov` gives the outcome of each numbered attempt, `fuel` the
remaining retries.  Returns the final result, the number of attempts made
and the backoff delays waited between attempts. -/
def callAux (prov : Nat → CallResult) (attempt : Nat) :
    Nat → CallResult × Nat × List Nat
  | 0 => (prov attempt, 1, [])
  | fuel + 1 =>
      match prov attempt with
      | .success t => (.success t, 1, [])
      | .failure e =>
          if retryable e then
            let rest := callAux prov (attempt + 1) fuel
            (rest.1, rest.2.1 + 1, backoffMs attempt :: rest.2.2)
          else (.failure e, 1, [])

/-- The retry loop started at attempt 0 with the configured bound. -/
def callWithRetry (prov : Nat → CallResult) : CallResult × Nat × List Nat :=
  callAux prov 0 maxRetries

/-- Execute a parsed action sequence in order against the sandbox,
recording each ExecutionResult independently. -/
def execActions (fs : FS) : List Action → List ExecutionResult × FS
  | [] => ([], fs)
  | a :: rest =>
      let r := execute a fs
      let tail := execActions r.2 rest
      (⟨a, r.1⟩ :: tail.1, tail.2)

/-- Modelled from the spec: the ProviderRequest rendered for the next
call: the active model id and the full turn history. -/
structure ProviderRequest where
  modelId : String
  history : List Turn
  deriving Repr, DecidableEq

/-- The request the Conversation Manager would send next. -/
def mkRequest (st : ConvState) : ProviderRequest := ⟨st.activeModel, st.turns⟩

/-- Result of the /model command. -/
inductive CmdOutcome
  | ok
  | errNotFound
  | errBusy
  deriving Repr, DecidableEq

/-- Modelled from the spec: the /model command — permitted only while
idle, fails with NotFound for an unregistered id leaving everything
unchanged, otherwise updates only the active-model field. -/
def handleModelCmd (st : ConvState) (id : String) : ConvState × CmdOutcome :=
  if st.phase = .idle then
    match lookupModel id with
    | none => (st, .errNotFound)
    | some m => (⟨st.phase, st.turns, m.id⟩, .ok)
  else (st, .errBusy)

/-- Outcome of processing one full prompt turn. -/
structure TurnResult where
  st : ConvState
  fs : FS
  attempts : Nat
  backoffs : List Nat
  surfaced : Option ProviderError
  deriving Repr, DecidableEq

/-- Modelled from the spec: processing one free-text prompt from idle —
append the User turn, call the provider with bounded retry and backoff; on
failure surface the error and return to idle with no partial Model turn;
on success append the Model turn with the parsed actions, execute them in
order and append the ToolResult turn.  `recognize` stands for the lexer
that finds prose and fenced blocks in the raw response text. -/
def runPrompt (st : ConvState) (fs : FS) (prompt : String)
    (prov : Nat → CallResult) (recognize : String → List Fragment) :
    TurnResult :=
  if st.phase = .idle then
    let turns1 := st.turns ++ [userTurn prompt]
    let c := callWithRetry prov
    match c.1 with
    | .failure e => ⟨⟨.idle, turns1, st.activeModel⟩, fs, c.2.1, c.2.2, some e⟩
    | .success text =>
        match parseResponse (recognize text) with
        | .parseError =>
            ⟨⟨.idle, turns1 ++ [modelTurn text []], st.activeModel⟩,
              fs, c.2.1, c.2.2, none⟩
        | .parsed actions _sk =>
            let er := execActions fs actions
            ⟨⟨.idle, turns1 ++ [modelTurn text actions, toolTurn er.1],
                st.activeModel⟩, er.2, c.2.1, c.2.2, none⟩
  else ⟨st, fs, 0, [], none⟩

/-- Events driving the Conversation Manager state machine. -/
inductive Event
  | submit (prompt : String)
  | response (text : String) (frags : List Fragment)
  | providerFailure (e : ProviderError)
  | applied (results : List ExecutionResult)
  | cmdModels
  | cmdModel (id : String)
  | cmdConfig
  | cmdQuit
  deriving Repr, DecidableEq

/-- One transition outcome: the next state and whether the process ends. -/
structure StepOut where
  st : ConvState
  terminated : Bool
  deriving Repr, DecidableEq

/-- Modelled from the spec: one transition of the Conversation Manager
state machine, missing from src/.  Explicit /quit terminates from any
phase; a failed phase always returns to idle; a response is recorded as a
Model turn even when every directive is malformed; applied results are
recorded as a ToolResult turn even when every action failed; submissions
while busy are rejected unchanged. -/
def step (st : ConvState) (ev : Event) : StepOut :=
  match ev with
  | .cmdQuit => ⟨st, true⟩
  | _ =>
      match st.phase with
      | .failed => ⟨⟨.idle, st.turns, st.activeModel⟩, false⟩
      | .idle =>
          match ev with
          | .submit prompt =>
              ⟨⟨.awaitingResponse, st.turns ++ [userTurn prompt],
                  st.activeModel⟩, false⟩
          | .cmdModel id => ⟨(handleModelCmd st id).1, false⟩
          | _ => ⟨st, false⟩
      | .awaitingResponse =>
          match ev with
          | .response text frags =>
              ⟨⟨.applying,
                  st.turns ++ [modelTurn text (parseFragments frags).1],
                  st.activeModel⟩, false⟩
          | .providerFailure _ => ⟨⟨.failed, st.turns, st.activeModel⟩, false⟩
          | _ => ⟨st, false⟩
      | .applying =>
          match ev with
          | .applied rs =>
              ⟨⟨.idle, st.turns ++ [toolTurn rs], st.activeModel⟩, false⟩
          | _ => ⟨st, false⟩

end Agent

/-- Writing at a path makes lookup at that path return the new content. -/
theorem FS_lookup_set_self (fs : Agent.FS) (p : List String) (c : String) :
    Agent.FS.lookup (Agent.FS.set fs p c) p = some c := by
  induction fs with
  | nil => simp [Agent.FS.set, Agent.FS.lookup, List.find?]
  | cons e rest ih =>
      by_cases h : e.1 = p
      · simp [Agent.FS.set, h, Agent.FS.lookup, List.find?]
      · have hb : (e.1 == p) = false := beq_eq_false_iff_ne.mpr h
        simp only [Agent.FS.set, hb, Bool.false_eq_true, if_false]
        simpa [Agent.FS.lookup, List.find?, hb] using ih

/-- The fragment pass extracts exactly the well-formed directives, in
order, and collects exactly the malformed ones, in order. -/
theorem parseFragments_eq (frags : List Agent.Fragment) :
    Agent.parseFragments frags
      = (frags.filterMap Agent.fragToAction, frags.filterMap Agent.fragMalformed) := by
  induction frags with
  | nil => rfl
  | cons f rest ih =>
      cases f with
      | prose t =>
          simp [Agent.parseFragments, ih, Agent.fragToAction, Agent.fragMalformed,
            List.filterMap_cons]
      | block d =>
          simp only [Agent.parseFragments, ih]
          cases h : Agent.directiveToAction d <;>
            simp [Agent.fragToAction, Agent.fragMalformed, h, List.filterMap_cons]

/-- C1: an Action whose path, after resolving dot and dot-dot segments,
falls outside the sandbox root fails with pathEscape, and the filesystem
is returned unchanged — the check happens before any mutation. -/
theorem execute_path_escape_no_mutation (a : Agent.Action) (fs : Agent.FS)
    (h : Agent.resolvePath a.path = none) :
    Agent.execute a fs = (.failed .pathEscape "path escapes sandbox root", fs) := by
  simp only [Agent.execute, h]

/-- Witness for C1: creating a file at dot-dot/etc escapes the sandbox. -/
theorem execute_path_escape_no_mutation_witness :
    Agent.execute (.createFile ["..", "etc"] "x" false) [] =
      (.failed .pathEscape "path escapes sandbox root", []) :=
  execute_path_escape_no_mutation (.createFile ["..", "etc"] "x" false) [] (by decide)

/-- C2: a response with no well-formed directive but at least one
recognized fragment of prose or malformed block parses to the empty action
sequence with Skipped records — a valid outcome, not parseError. -/
theorem parse_no_wellformed_yields_empty (frags : List Agent.Fragment)
    (hne : frags ≠ [])
    (hmal : ∀ f ∈ frags, Agent.fragToAction f = none) :
    Agent.parseResponse frags
      = .parsed [] (frags.filterMap Agent.fragMalformed) := by
  have hnil : frags.filterMap Agent.fragToAction = [] :=
    List.filterMap_eq_nil_iff.mpr hmal
  cases frags with
  | nil => exact absurd rfl hne
  | cons f rest =>
      simp only [Agent.parseResponse, parseFragments_eq]
      rw [hnil]

/-- Witness for C2: prose followed by a malformed directive yields no
actions and one Skipped record. -/
theorem parse_no_wellformed_yields_empty_witness :
    Agent.parseResponse
        [ .prose "hello there"
        , .block { op := "bogus", path := ["a.txt"], payload := "x" } ]
      = .parsed [] [{ op := "bogus", path := ["a.txt"], payload := "x" }] := by
  have h := parse_no_wellformed_yields_empty
    [ .prose "hello there"
    , .block { op := "bogus", path := ["a.txt"], payload := "x" } ]
    (by decide) (by decide)
  rw [h]
  decide

/-- C4: a response mixing prose, well-formed and malformed directives
parses to exactly the well-formed directives as Actions in their original
order, with each malformed directive reported as a Skipped record, never
parseError. -/
theorem parse_mixed_extracts_in_order (frags : List Agent.Fragment)
    (hne : frags ≠ []) :
    Agent.parseResponse frags
      = .parsed (frags.filterMap Agent.fragToAction)
          (frags.filterMap Agent.fragMalformed) := by
  cases frags with
  | nil => exact absurd rfl hne
  | cons f rest => simp only [Agent.parseResponse, parseFragments_eq]

/-- Witness for C4: prose, a create directive, a malformed directive and
an edit directive parse to the two actions in order plus one Skipped
record. -/
theorem parse_mixed_extracts_in_order_witness :
    Agent.parseResponse
        [ .prose "sure, here you go"
        , .block { op := "create", path := ["a.txt"], payload := "one" }
        , .block { op := "bogus", path := ["b.txt"], payload := "two" }
        , .block { op := "edit", path := ["a.txt"], payload := "three" } ]
      = .parsed
          [ .createFile ["a.txt"] "one" false, .editFile ["a.txt"] "three" ]
          [ { op := "bogus", path := ["b.txt"], payload := "two" } ] := by
  have h := parse_mixed_extracts_in_order
    [ .prose "sure, here you go"
    , .block { op := "create", path := ["a.txt"], payload := "one" }
    , .block { op := "bogus", path := ["b.txt"], payload := "two" }
    , .block { op := "edit", path := ["a.txt"], payload := "three" } ]
    (by decide)
  rw [h]
  decide

/-- C3: creating the same file twice without an explicit overwrite request
yields ok then alreadyExists, and afterwards the file holds exactly the
content from the first call. -/
theorem createFile_twice_without_overwrite (p rp : List String) (c : String)
    (fs : Agent.FS)
    (hres : Agent.resolvePath p = some rp)
    (habs : Agent.FS.lookup fs rp = none) :
    (Agent.execute (.createFile p c false) fs).1 = .ok "created" ∧
    (Agent.execute (.createFile p c false)
        (Agent.execute (.createFile p c false) fs).2).1
      = .failed .alreadyExists "target exists" ∧
    Agent.FS.lookup
      (Agent.execute (.createFile p c false)
        (Agent.execute (.createFile p c false) fs).2).2 rp = some c := by
  have h1 : Agent.execute (.createFile p c false) fs
      = (.ok "created", Agent.FS.set fs rp c) := by
    simp only [Agent.execute, Agent.Action.path, hres, habs]
  have hset : Agent.FS.lookup (Agent.FS.set fs rp c) rp = some c :=
    FS_lookup_set_self fs rp c
  have h2 : Agent.execute (.createFile p c false) (Agent.FS.set fs rp c)
      = (.failed .alreadyExists "target exists", Agent.FS.set fs rp c) := by
    simp [Agent.execute, Agent.Action.path, hres, hset]
  rw [h1]
  exact ⟨rfl, by rw [h2], by rw [h2]; exact hset⟩

/-- Witness for C3 at hello.py on an empty sandbox. -/
theorem createFile_twice_without_overwrite_witness :
    (Agent.execute (.createFile ["hello.py"] "say hello" false) []).1
      = .ok "created" ∧
    (Agent.execute (.createFile ["hello.py"] "say hello" false)
        (Agent.execute (.createFile ["hello.py"] "say hello" false) []).2).1
      = .failed .alreadyExists "target exists" ∧
    Agent.FS.lookup
      (Agent.execute (.createFile ["hello.py"] "say hello" false)
        (Agent.execute (.createFile ["hello.py"] "say hello" false) []).2).2
      ["hello.py"] = some "say hello" :=
  createFile_twice_without_overwrite ["hello.py"] ["hello.py"] "say hello" []
    (by decide) (by decide)

/-- Against a provider that fails every attempt with a retryable error,
the retry loop makes one attempt per unit of fuel plus one, waiting the
scheduled backoff between attempts, and surfaces the error. -/
theorem callAux_const_failure_retryable (e : Agent.ProviderError)
    (he : Agent.retryable e = true) (fuel a : Nat) :
    Agent.callAux (fun _ => .failure e) a fuel
      = (.failure e, fuel + 1,
          (List.range fuel).map (fun k => Agent.backoffMs (a + k))) := by
  induction fuel generalizing a with
  | zero => simp [Agent.callAux]
  | succ n ih =>
      simp only [Agent.callAux, he, if_true]
      rw [ih (a + 1)]
      rw [List.range_succ_eq_map, List.map_cons, List.map_map]
      refine congrArg _ (congrArg _ ?_)
      refine congrArg _ (List.map_congr_left ?_)
      intro x _
      show Agent.backoffMs (a + 1 + x) = Agent.backoffMs (a + (x + 1))
      congr 1
      omega

/-- Against a provider that fails every attempt with a non-retryable
error, the retry loop stops after a single attempt with no backoff. -/
theorem callAux_const_failure_nonretryable (e : Agent.ProviderError)
    (he : Agent.retryable e = false) (fuel a : Nat) :
    Agent.callAux (fun _ => .failure e) a fuel = (.failure e, 1, []) := by
  cases fuel <;> simp [Agent.callAux, he]

/-- C5: when every provider attempt fails with the same error, a retryable
kind (rateLimited, providerUnavailable, providerUnreachable) is retried up
to the configured bound with the backoff schedule while authError and
timeout surface after exactly one attempt with no backoff; either way the
conversation returns to idle, the error is surfaced, the sandbox is
untouched and no partial Model turn is recorded. -/
theorem provider_failure_retry_policy (st : Agent.ConvState) (fs : Agent.FS)
    (prompt : String) (recognize : String → List Agent.Fragment)
    (e : Agent.ProviderError) (hidle : st.phase = .idle) :
    (Agent.runPrompt st fs prompt (fun _ => .failure e) recognize).st.phase
        = .idle ∧
    (Agent.runPrompt st fs prompt (fun _ => .failure e) recognize).st.turns
        = st.turns ++ [Agent.userTurn prompt] ∧
    (Agent.runPrompt st fs prompt (fun _ => .failure e) recognize).fs = fs ∧
    (Agent.runPrompt st fs prompt (fun _ => .failure e) recognize).surfaced
        = some e ∧
    (Agent.retryable e = true →
      (Agent.runPrompt st fs prompt (fun _ => .failure e) recognize).attempts
          = Agent.maxRetries + 1 ∧
      (Agent.runPrompt st fs prompt (fun _ => .failure e) recognize).backoffs
          = (List.range Agent.maxRetries).map Agent.backoffMs) ∧
    (Agent.retryable e = false →
      (Agent.runPrompt st fs prompt (fun _ => .failure e) recognize).attempts
          = 1 ∧
      (Agent.runPrompt st fs prompt (fun _ => .failure e) recognize).backoffs
          = []) := by
  cases hr : Agent.retryable e
  · have hc := callAux_const_failure_nonretryable e hr Agent.maxRetries 0
    simp [Agent.runPrompt, hidle, Agent.callWithRetry, hc]
  · have hc := callAux_const_failure_retryable e hr Agent.maxRetries 0
    simp [Agent.runPrompt, hidle, Agent.callWithRetry, hc]

/-- Witness for C5: an idle conversation against a provider that always
returns rateLimited makes four attempts, waits three backoffs, surfaces
the error and records only the User turn. -/
theorem provider_failure_retry_policy_witness :
    (Agent.runPrompt ⟨.idle, [], "llama3.2"⟩ [] "hi"
        (fun _ => .failure .rateLimited) (fun _ => [])).st.phase = .idle ∧
    (Agent.runPrompt ⟨.idle, [], "llama3.2"⟩ [] "hi"
        (fun _ => .failure .rateLimited) (fun _ => [])).st.turns
      = [] ++ [Agent.userTurn "hi"] ∧
    (Agent.runPrompt ⟨.idle, [], "llama3.2"⟩ [] "hi"
        (fun _ => .failure .rateLimited) (fun _ => [])).fs = [] ∧
    (Agent.runPrompt ⟨.idle, [], "llama3.2"⟩ [] "hi"
        (fun _ => .failure .rateLimited) (fun _ => [])).surfaced
      = some .rateLimited ∧
    (Agent.retryable .rateLimited = true →
      (Agent.runPrompt ⟨.idle, [], "llama3.2"⟩ [] "hi"
          (fun _ => .failure .rateLimited) (fun _ => [])).attempts
        = Agent.maxRetries + 1 ∧
      (Agent.runPrompt ⟨.idle, [], "llama3.2"⟩ [] "hi"
          (fun _ => .failure .rateLimited) (fun _ => [])).backoffs
        = (List.range Agent.maxRetries).map Agent.backoffMs) ∧
    (Agent.retryable .rateLimited = false →
      (Agent.runPrompt ⟨.idle, [], "llama3.2"⟩ [] "hi"
          (fun _ => .failure .rateLimited) (fun _ => [])).attempts = 1 ∧
      (Agent.runPrompt ⟨.idle, [], "llama3.2"⟩ [] "hi"
          (fun _ => .failure .rateLimited) (fun _ => [])).backoffs = []) :=
  provider_failure_retry_policy ⟨.idle, [], "llama3.2"⟩ [] "hi"
    (fun _ => []) .rateLimited rfl

/-- C6: no error condition terminates the process — a step terminates
exactly on the explicit /quit event; a provider failure while awaiting a
response only fails the current turn, recording no Model turn; any step
out of the failed phase other than /quit returns to idle; applied results,
failed or not, return the conversation to idle with the ToolResult turn
appended; a response whose directives are all malformed still becomes a
Model turn. -/
theorem no_error_terminates_process (st : Agent.ConvState) (ev : Agent.Event) :
    ((Agent.step st ev).terminated = true ↔ ev = .cmdQuit) ∧
    (∀ e, ev = .providerFailure e → st.phase = .awaitingResponse →
      (Agent.step st ev).st.phase = .failed ∧
      (Agent.step st ev).st.turns = st.turns) ∧
    (st.phase = .failed → ev ≠ .cmdQuit →
      (Agent.step st ev).st.phase = .idle ∧
      (Agent.step st ev).st.turns = st.turns) ∧
    (∀ rs, ev = .applied rs → st.phase = .applying →
      (Agent.step st ev).st.phase = .idle ∧
      (Agent.step st ev).st.turns = st.turns ++ [Agent.toolTurn rs]) ∧
    (∀ text frags, ev = .response text frags → st.phase = .awaitingResponse →
      (Agent.step st ev).st.phase = .applying ∧
      (Agent.step st ev).st.turns
        = st.turns
            ++ [Agent.modelTurn text (Agent.parseFragments frags).1]) := by
  obtain ⟨ph, tn, am⟩ := st
  refine ⟨?_, ?_, ?_, ?_, ?_⟩ <;>
    cases ev <;> cases ph <;> simp [Agent.step]

/-- Witness for C6: from a failed state, a submit event returns the
conversation to idle without terminating the process. -/
theorem no_error_terminates_process_witness :
    (Agent.step ⟨.failed, [], "llama3.2"⟩ (.submit "hi")).st.phase = .idle ∧
    (Agent.step ⟨.failed, [], "llama3.2"⟩ (.submit "hi")).st.turns = [] ∧
    (Agent.step ⟨.failed, [], "llama3.2"⟩ (.submit "hi")).terminated = false := by
  have h := no_error_terminates_process ⟨.failed, [], "llama3.2"⟩ (.submit "hi")
  refine ⟨(h.2.2.1 rfl (by decide)).1, (h.2.2.1 rfl (by decide)).2, ?_⟩
  have hq := h.1
  cases hter : (Agent.step ⟨.failed, [], "llama3.2"⟩ (.submit "hi")).terminated
  · rfl
  · exact absurd (hq.mp hter) (by decide)

/-- C7: selecting an id absent from the registry via /model fails with
NotFound leaving the whole state, in particular the active model,
unchanged; lookup and list are pure functions of the static registry, and
list returns the entries in declaration order. -/
theorem model_cmd_not_found (st : Agent.ConvState) (id : String)
    (hidle : st.phase = .idle) (h : Agent.lookupModel id = none) :
    Agent.handleModelCmd st id = (st, .errNotFound) ∧
    Agent.listModels.map (fun m => m.id)
      = [ "gemini-3-flash-preview", "gemini-2.5-flash-lite"
        , "gemini-2.5-flash", "gemini-2.5-pro", "compound-beta"
        , "meta-llama/llama-4-scout-17b-16e-instruct", "llama3.2" ] := by
  constructor
  · simp [Agent.handleModelCmd, hidle, h]
  · rfl

/-- Witness for C7: /model ghost fails with NotFound and changes
nothing. -/
theorem model_cmd_not_found_witness :
    Agent.handleModelCmd ⟨.idle, [], "llama3.2"⟩ "ghost"
      = (⟨.idle, [], "llama3.2"⟩, .errNotFound) ∧
    Agent.listModels.map (fun m => m.id)
      = [ "gemini-3-flash-preview", "gemini-2.5-flash-lite"
        , "gemini-2.5-flash", "gemini-2.5-pro", "compound-beta"
        , "meta-llama/llama-4-scout-17b-16e-instruct", "llama3.2" ] :=
  model_cmd_not_found ⟨.idle, [], "llama3.2"⟩ "ghost" rfl (by decide)

/-- C8: switching the active model while idle with a registered id changes
only the active-model field — the phase and every prior turn are preserved
unchanged — and the next ProviderRequest rendered for the new provider
carries the full prior turn history. -/
theorem model_switch_preserves_history (st : Agent.ConvState) (id : String)
    (m : Agent.ModelSpec) (hidle : st.phase = .idle)
    (h : Agent.lookupModel id = some m) :
    (Agent.handleModelCmd st id).1.turns = st.turns ∧
    (Agent.handleModelCmd st id).1.phase = st.phase ∧
    (Agent.handleModelCmd st id).1.activeModel = m.id ∧
    (Agent.handleModelCmd st id).2 = .ok ∧
    Agent.mkRequest (Agent.handleModelCmd st id).1
      = ⟨m.id, st.turns⟩ := by
  simp [Agent.handleModelCmd, hidle, h, Agent.mkRequest]

/-- Witness for C8: switching a one-turn idle conversation to llama3.2
keeps the turn and renders the next request with the full history. -/
theorem model_switch_preserves_history_witness :
    (Agent.handleModelCmd
        ⟨.idle, [Agent.userTurn "hi"], "compound-beta"⟩ "llama3.2").1.turns
      = [Agent.userTurn "hi"] ∧
    (Agent.handleModelCmd
        ⟨.idle, [Agent.userTurn "hi"], "compound-beta"⟩ "llama3.2").1.phase
      = .idle ∧
    (Agent.handleModelCmd
        ⟨.idle, [Agent.userTurn "hi"], "compound-beta"⟩
        "llama3.2").1.activeModel = "llama3.2" ∧
    (Agent.handleModelCmd
        ⟨.idle, [Agent.userTurn "hi"], "compound-beta"⟩ "llama3.2").2
      = .ok ∧
    Agent.mkRequest
        (Agent.handleModelCmd
          ⟨.idle, [Agent.userTurn "hi"], "compound-beta"⟩ "llama3.2").1
      = ⟨"llama3.2", [Agent.userTurn "hi"]⟩ := by
  have h := model_switch_preserves_history
    ⟨.idle, [Agent.userTurn "hi"], "compound-beta"⟩ "llama3.2"
    ⟨"llama3.2", "Llama 3.2", .ollama⟩ rfl (by decide)
  exact ⟨h.1, h.2.1, h.2.2.1, h.2.2.2.1, h.2.2.2.2⟩

/-- C9: an unsupported platform-architecture pair makes the install script
exit with status 1 after printing an error, creating no directory and
writing no wrapper file. -/
theorem install_unsupported_platform_exits_without_writes
    (platformOS arch manifest : String) (dirEx fileEx : Bool)
    (h : Install.lookupPlatform (platformOS ++ "-" ++ arch) = none) :
    Install.installScript platformOS arch manifest dirEx fileEx =
      { exitCode := some 1, errorPrinted := true, mkdirCalled := false
      , wrotePath := none, wroteContent := none, chmodArg := none
      , logPrinted := false } := by
  simp only [Install.installScript, h]

/-- Witness for C9 at the concrete unsupported pair linux-ia32. -/
theorem install_unsupported_platform_exits_without_writes_witness :
    Install.installScript "linux" "ia32" "m" true true =
      { exitCode := some 1, errorPrinted := true, mkdirCalled := false
      , wrotePath := none, wroteContent := none, chmodArg := none
      , logPrinted := false } :=
  install_unsupported_platform_exits_without_writes "linux" "ia32" "m" true true (by decide)

/-- C10: on a supported platform the install script always writes the
wrapper to bin/clio-ai (bin/clio-ai.exe on win32) regardless of whether the
file already exists, creates the bin directory exactly when it is missing,
and chmods the file to 755 exactly on non-win32 platforms. -/
theorem install_supported_platform_writes_wrapper
    (platformOS arch manifest : String) (dirEx fileEx : Bool) (b : String)
    (h : Install.lookupPlatform (platformOS ++ "-" ++ arch) = some b) :
    Install.installScript platformOS arch manifest dirEx fileEx =
      { exitCode := none, errorPrinted := false
      , mkdirCalled := !dirEx
      , wrotePath := some (Install.binPath platformOS)
      , wroteContent := some (Install.wrapper platformOS manifest)
      , chmodArg := if platformOS == "win32" then none
                    else some (Install.binPath platformOS, "755")
      , logPrinted := true } := by
  simp only [Install.installScript, h]

/-- Witness for C10 at linux-x64 with the bin directory missing and the
wrapper file already present. -/
theorem install_supported_platform_writes_wrapper_witness :
    Install.installScript "linux" "x64" "m" false true =
      { exitCode := none, errorPrinted := false
      , mkdirCalled := true
      , wrotePath := some "bin/clio-ai"
      , wroteContent := some (Install.wrapper "linux" "m")
      , chmodArg := some ("bin/clio-ai", "755")
      , logPrinted := true } := by
  have h := install_supported_platform_writes_wrapper "linux" "x64" "m" false true
    "clio-ai-linux-x64" (by decide)
  simpa [Install.binPath] using h
